import Mathlib

/-!
A shallow embedding of the email-processing pipeline from
`src/email_processing.py`, together with proofs about its behaviour.

Modelling conventions:
* Python dictionaries with a fixed key set become Lean structures; the
  static configuration dictionaries become association lists queried with
  `List.lookup` (Python `dict.get(k, default)`).
* Python functions that catch exceptions and return `None` become
  `Option`-valued functions; an injected `Bool` fault flag stands for
  "the corresponding external call raised" where the external system
  (the H2 record store) can fail.
* The record store (table `emails`) is a list of rows threaded through
  the computation; `INSERT` appends, `SELECT COUNT(*) WHERE email_hash = ?`
  is an `any` scan.
* The external ML collaborators (`CLASSIFIER`, `NER`), the MIME parser
  and `hashlib.md5` are libraries, not code of this repository: they
  enter the model as function parameters carrying exactly the contract
  the code relies on.
* Confidence scores are modelled as rationals: the code only ever stores
  and compares them.
-/

namespace EmailProc

/-- Python `s.lower()`: character-wise lower-casing of the string. -/
def pyLower (s : String) : String := ⟨s.data.map Char.toLower⟩

/-- Contiguous-sublist test: `needle` occurs inside the other list. -/
def subListOf (needle : List Char) : List Char → Bool
  | [] => needle.isEmpty
  | c :: rest => needle.isPrefixOf (c :: rest) || subListOf needle rest

/-- Python `needle in haystack` on strings: substring containment. -/
def strContains (haystack needle : String) : Bool :=
  subListOf needle.data haystack.data

/-- Python `s.endswith(suffix)`. -/
def pyEndsWith (s suffix : String) : Bool :=
  suffix.data.isSuffixOf s.data

/-- Python truthiness of `segment.strip()`: the string has at least one
non-whitespace character (equivalently, it is non-empty after trimming). -/
def stripTruthy (s : String) : Bool :=
  s.data.any (fun c => !c.isWhitespace)

/-- Worker for `pySplit`: scan left to right, cutting at each leftmost
non-overlapping occurrence of `sep`.  `cur` holds the current token in
reverse; the fuel argument (initially the haystack length, consumed one
unit per step while the haystack shrinks by at least one character per
step) makes the recursion structural. -/
def pySplitAux (sep : List Char) :
    List Char → List Char → Nat → List (List Char)
  | cur, l, 0 => [cur.reverse ++ l]
  | cur, [], _ + 1 => [cur.reverse]
  | cur, c :: rest, fuel + 1 =>
    if sep.isPrefixOf (c :: rest) then
      cur.reverse :: pySplitAux sep [] (List.drop sep.length (c :: rest)) fuel
    else
      pySplitAux sep (c :: cur) rest fuel

/-- Python `s.split(sep)` for a non-empty separator: the substrings
between consecutive non-overlapping occurrences of `sep`, scanning from
the left; adjacent occurrences yield empty tokens. -/
def pySplit (s sep : String) : List String :=
  (pySplitAux sep.data [] s.data s.data.length).map (fun l => ⟨l⟩)

/-- Source line 47: the fixed top-level request categories. -/
def REQUEST_TYPES : List String :=
  ["Payment Inquiry", "Loan Request", "Account Update"]

/-- Source lines 53-57: category → destination team. -/
def ROUTING_RULES : List (String × String) :=
  [("Payment Inquiry", "Finance Team"),
   ("Loan Request", "Loan Processing Team"),
   ("Account Update", "Customer Support Team")]

/-- Source lines 58-62: category → base priority. -/
def PRIORITY_RULES : List (String × Nat) :=
  [("Payment Inquiry", 3), ("Loan Request", 2), ("Account Update", 1)]

/-- The `email_data` dictionary built by `extract_email_components`
(source lines 90-95).  Attachment payloads are byte lists. -/
structure EmailData where
  filename : String
  subject : String
  body : String
  attachments : List (String × List Nat)
deriving Repr, DecidableEq

/-- The `intent` dictionary built by `classify_email_intent`
(source lines 119-124). -/
structure Intent where
  request_type : String
  request_confidence : Rat
  sub_request_type : Option String
  sub_request_confidence : Rat
deriving Repr, DecidableEq

/-- One entry of `context.entities` (source lines 140-143). -/
structure Entity where
  text : String
  label : String
deriving Repr, DecidableEq

/-- The `context` dictionary built by `extract_context`
(source lines 138-151). -/
structure Context where
  entities : List Entity
  amounts : List String
  dates : List String
deriving Repr, DecidableEq

/-- One entry of the `intents` list built by `handle_multi_request`
(source lines 169-173). -/
structure SegmentIntent where
  segment : String
  request_type : String
  confidence : Rat
deriving Repr, DecidableEq

/-- The `scored_intent` dictionary built by
`assign_priority_and_confidence` (source lines 195-199). -/
structure ScoredIntent where
  request_type : String
  confidence : Rat
  priority : Nat
deriving Repr, DecidableEq

/-- One row of the `emails` table (source lines 231-241 and 267-277).
The code stores `str(context)`; the row here keeps the structured value,
since no claim depends on the textual serialization. -/
structure StoredRecord where
  filename : String
  request_type : String
  sub_request_type : Option String
  confidence : Rat
  context : Context
  email_hash : String
deriving Repr, DecidableEq

/-- The `result['routing']` dictionary set by `route_request`
(source line 289). -/
structure Routing where
  team : String
deriving Repr, DecidableEq

/-- The `result` dictionary built by `process_single_email`
(source lines 336-342); `routing` is absent until `route_request` adds
it, hence the `Option`. -/
structure ResultRecord where
  filename : String
  intent : ScoredIntent
  context : Context
  is_duplicate : Bool
  all_intents : List SegmentIntent
  routing : Option Routing
deriving Repr, DecidableEq

/-- Python `max(l, key=key)` keeps the current best and replaces it only
when a strictly greater key appears, so ties keep the earliest element.
This is the accumulator loop of that builtin. -/
def maxByKeyAux (key : α → Rat) (best : α) : List α → α
  | [] => best
  | y :: ys => maxByKeyAux key (if key best < key y then y else best) ys

/-- Python `max(l, key=key) if l else None` (source line 175). -/
def pyMaxByKey (key : α → Rat) : List α → Option α
  | [] => none
  | x :: xs => some (maxByKeyAux key x xs)

/-- The `for segment in segments` loop of `handle_multi_request` (source
lines 166-173): segments that fail the strip test are skipped, surviving
ones are classified and appended; a raising classifier call (`none`)
aborts the whole loop. -/
def hmr_loop (classify : String → Option (String × Rat)) :
    List SegmentIntent → List String → Option (List SegmentIntent)
  | acc, [] => some acc
  | acc, segment :: rest =>
    if stripTruthy segment then
      match classify segment with
      | none => none
      | some r => hmr_loop classify (acc ++ [⟨segment, r.1, r.2⟩]) rest
    else hmr_loop classify acc rest

/-- `handle_multi_request` (source lines 160-180).  `classify` models one
`CLASSIFIER(segment, candidate_labels=REQUEST_TYPES)` call returning the
winning label and score; `none` models the call raising, in which case
the `except` branch returns `(None, [])`, discarding partial results. -/
def handle_multi_request (classify : String → Option (String × Rat))
    (email_data : EmailData) : Option SegmentIntent × List SegmentIntent :=
  let segments := pySplit email_data.body "\n\n"
  match hmr_loop classify [] segments with
  | none => (none, [])
  | some intents => (pyMaxByKey SegmentIntent.confidence intents, intents)

/-- `assign_priority_and_confidence` (source lines 184-204).  With typed
input records the dictionary accesses in the `try` block cannot raise, so
the function is total. -/
def assign_priority_and_confidence (intent : Intent)
    (email_data : EmailData) : ScoredIntent :=
  let request_type := intent.request_type
  let confidence := intent.request_confidence
  let priority := (PRIORITY_RULES.lookup request_type).getD 1
  let text := pyLower email_data.body
  let priority :=
    if strContains text "urgent" || strContains text "immediate" then
      priority + 1
    else priority
  ⟨request_type, confidence, priority⟩

/-- `compute_email_hash` (source lines 208-217): `md5hex` models
`lambda t: hashlib.md5(t.encode()).hexdigest()`, a fixed deterministic
library function applied to `subject + body`. -/
def compute_email_hash (md5hex : String → String) (email_data : EmailData) :
    String :=
  md5hex (email_data.subject ++ email_data.body)

/-- Fault-injection flags for the record store: each flag set means the
corresponding `cursor`/connection call raises. -/
structure StoreFaults where
  connectFails : Bool
  existsRaises : Bool
  insertRaises : Bool
deriving Repr, DecidableEq

/-- `detect_duplicates` (source lines 250-260): a `COUNT(*) > 0` scan by
fingerprint; if the query raises, the `except` branch returns `False`. -/
def detect_duplicates (f : StoreFaults) (rows : List StoredRecord)
    (email_hash : String) : Bool :=
  if f.existsRaises then false
  else rows.any (fun row => row.email_hash == email_hash)

/-- `store_email_data` (source lines 264-281): appends one row; if the
`INSERT` raises, the `except` branch logs and returns normally, leaving
the table unchanged — the error is not propagated to the caller. -/
def store_email_data (f : StoreFaults) (rows : List StoredRecord)
    (email_data : EmailData) (intent : Intent) (context : Context)
    (email_hash : String) : List StoredRecord :=
  if f.insertRaises then rows
  else
    rows ++ [⟨email_data.filename, intent.request_type,
              intent.sub_request_type, intent.request_confidence,
              context, email_hash⟩]

/-- The lookup `ROUTING_RULES.get(request_type, "Default Team")`
(source line 288), the `route` operation of the router. -/
def route (category : String) : String :=
  (ROUTING_RULES.lookup category).getD "Default Team"

/-- `route_request` (source lines 284-294): adds the `routing` field and
returns the record.  The `except` branch also returns the record, so the
source function is total on records as well. -/
def route_request (result : ResultRecord) : ResultRecord :=
  let request_type := result.intent.request_type
  let team := route request_type
  { result with routing := some ⟨team⟩ }

/-- `process_single_email` (source lines 310-356).  `md5hex` is the hash
collaborator, `rows` the current record store.  The early `return None`
checks after priority assignment and hashing cannot fire on typed input
(those helpers are total here); a connection failure in
`setup_h2_database` yields `(None, None)` and hence `return None`.
Audit logging is I/O only and `conn.commit()`/`close()` succeed in the
modelled scenarios, so they do not appear.  `primary_intent` is received
but, as in the source, never used in phase 2. -/
def process_single_email (f : StoreFaults) (md5hex : String → String)
    (rows : List StoredRecord) (email_data : EmailData) (intent : Intent)
    (context : Context) (_primary_intent : Option SegmentIntent)
    (all_intents : List SegmentIntent) :
    Option ResultRecord × List StoredRecord :=
  let scored_intent := assign_priority_and_confidence intent email_data
  let email_hash := compute_email_hash md5hex email_data
  if f.connectFails then (none, rows)
  else
    let is_duplicate := detect_duplicates f rows email_hash
    let rows' := store_email_data f rows email_data intent context email_hash
    let result : ResultRecord :=
      ⟨email_data.filename, scored_intent, context, is_duplicate,
       all_intents, none⟩
    let result := route_request result
    (some result, rows')

/-- Python `s.startswith(sep)` on strings. -/
def pyStartsWith (s pre : String) : Bool :=
  pre.data.isPrefixOf s.data

/-- One part yielded by `msg.walk()` in `extract_email_components`
(source lines 81-88), as the code observes it: its content type, the
result of `part.get_payload(decode=True).decode()` for text parts
(`none` models a raised `UnicodeDecodeError`), `part.get_filename()`,
and the raw payload bytes used for attachments. -/
structure RawPart where
  content_type : String
  decodedText : Option String
  filename : Option String
  payloadBytes : List Nat
deriving Repr, DecidableEq

/-- The message object returned by `email.message_from_file`: the
`subject` header (`none` when absent, the code defaults it to `""`) and
the parts in `walk()` order. -/
structure RawMessage where
  subject : Option String
  parts : List RawPart
deriving Repr, DecidableEq

/-- The `for part in msg.walk()` loop of `extract_email_components`
(source lines 81-88): text/plain parts append their decoded payload to
the body (a decode failure raises, aborting the whole extraction);
non-multipart parts with a filename are collected as attachments;
everything else is skipped. -/
def walk_parts :
    String × List (String × List Nat) → List RawPart →
      Option (String × List (String × List Nat))
  | acc, [] => some acc
  | acc, part :: rest =>
    if part.content_type = "text/plain" then
      match part.decodedText with
      | none => none
      | some s => walk_parts (acc.1 ++ s, acc.2) rest
    else if !(pyStartsWith part.content_type "multipart") then
      match part.filename with
      | some name => walk_parts (acc.1, acc.2 ++ [(name, part.payloadBytes)]) rest
      | none => walk_parts acc rest
    else walk_parts acc rest

/-- `extract_email_components` (source lines 72-100).  `parsed` models
`email.message_from_file` on the opened file: `none` when opening or
parsing raises.  All exceptions — including a decode failure inside the
walk — are caught by the single `except` and yield `None`.  The
directory join and `os.path.basename` are inverse, so `basename` is the
listed filename. -/
def extract_email_components (parsed : Option RawMessage)
    (basename : String) : Option EmailData :=
  match parsed with
  | none => none
  | some msg =>
    let subject := msg.subject.getD ""
    match walk_parts ("", []) msg.parts with
    | none => none
    | some ba => some ⟨basename, subject, ba.1, ba.2⟩

/-- The external collaborators of the pipeline: the MIME parser, the two
classifier uses, the entity extractor and the hash function.  A `none`
result models the corresponding call failing (the code catches it and
returns `None`). -/
structure Collaborators where
  parse : String → Option RawMessage
  classify_email_intent : EmailData → Option Intent
  extract_context : EmailData → Option Context
  segmentClassify : String → Option (String × Rat)
  md5hex : String → String

/-- `process_email_pipeline` (source lines 360-402): filter the listed
names to `.eml`, run phase 1 sequentially (skipping a message whenever
extraction, intent classification or context extraction returns `None`;
`handle_multi_request` is called without any such check), then run
`process_single_email` per message and drop `None` results.  The `Pool`
fan-out over one shared H2 file is modelled by threading the store
sequentially; writing `results.json` is I/O and the batch-level `except`
(unreadable directory) is outside this model, which receives the
directory listing as `files`. -/
def process_email_pipeline (collab : Collaborators) (f : StoreFaults)
    (files : List String) (rows0 : List StoredRecord) :
    List ResultRecord × List StoredRecord :=
  let filepaths := files.filter (fun n => pyEndsWith n ".eml")
  let preprocessed := filepaths.filterMap (fun fp =>
    match extract_email_components (collab.parse fp) fp with
    | none => none
    | some email_data =>
      match collab.classify_email_intent email_data with
      | none => none
      | some intent =>
        match collab.extract_context email_data with
        | none => none
        | some context =>
          let pr := handle_multi_request collab.segmentClassify email_data
          some (fp, email_data, intent, context, pr.1, pr.2))
  preprocessed.foldl
    (fun acc item =>
      match item with
      | (_, e, i, c, p, ai) =>
        let out := process_single_email f collab.md5hex acc.2 e i c p ai
        (acc.1 ++ out.1.toList, out.2))
    ([], rows0)

/-! Claim-side definitions: statements of what the specification says,
written from the words of the spec to be compared with the code model. -/

/-- Claim-side: the fixed base-priority table as the spec states it
(Payment Inquiry 3, Loan Request 2, Account Update 1, default 1). -/
def claimBasePriority (category : String) : Nat :=
  if category = "Payment Inquiry" then 3
  else if category = "Loan Request" then 2
  else if category = "Account Update" then 1
  else 1

/-- Claim-side: the lower-cased body contains "urgent" or "immediate"
as a substring. -/
def hasUrgencyKeyword (body : String) : Bool :=
  strContains (pyLower body) "urgent" || strContains (pyLower body) "immediate"

/-- Claim-side: the first segment result whose confidence is maximal,
i.e. the argmax by confidence with ties broken by earliest occurrence. -/
def specPrimaryIntent (l : List SegmentIntent) : Option SegmentIntent :=
  l.find? (fun x => l.all (fun y => decide (y.confidence ≤ x.confidence)))

/-- Claim-side: the concatenation, in walk order, of the decoded
contents of all text/plain parts (a part with no decoded content
contributes nothing). -/
def claimBody : List RawPart → String
  | [] => ""
  | part :: rest =>
    (if part.content_type = "text/plain" then part.decodedText.getD ""
     else "") ++ claimBody rest

/-! Helper lemmas. -/

/-- The table lookup with default 1 agrees with the spec's table. -/
theorem priority_lookup_eq_claimBase (c : String) :
    (PRIORITY_RULES.lookup c).getD 1 = claimBasePriority c := by
  unfold claimBasePriority
  by_cases h1 : c = "Payment Inquiry"
  · simp [PRIORITY_RULES, List.lookup, h1]
  · have e1 : (c == "Payment Inquiry") = false := beq_eq_false_iff_ne.mpr h1
    by_cases h2 : c = "Loan Request"
    · simp [PRIORITY_RULES, List.lookup, e1, h1, h2]
    · have e2 : (c == "Loan Request") = false := beq_eq_false_iff_ne.mpr h2
      by_cases h3 : c = "Account Update"
      · simp [PRIORITY_RULES, List.lookup, e1, e2, h1, h2, h3]
      · have e3 : (c == "Account Update") = false := beq_eq_false_iff_ne.mpr h3
        simp [PRIORITY_RULES, List.lookup, e1, e2, e3, h1, h2, h3]

/-! Claim C1. -/

/-- C1: the priority assigned by `assign_priority_and_confidence` is the
base priority of the category from the fixed table (3/2/1, any other
category 1) plus exactly 1 when the lower-cased body contains "urgent"
or "immediate" as a substring and plus 0 otherwise; consequently, for a
fixed intent, a body with an urgency keyword scores exactly one more
than a body without one. -/
theorem assign_priority_spec :
    (∀ (intent : Intent) (e : EmailData),
      (assign_priority_and_confidence intent e).priority =
        claimBasePriority intent.request_type +
          (if hasUrgencyKeyword e.body then 1 else 0)) ∧
    (∀ (intent : Intent) (e1 e2 : EmailData),
      hasUrgencyKeyword e1.body = true → hasUrgencyKeyword e2.body = false →
      (assign_priority_and_confidence intent e1).priority =
        (assign_priority_and_confidence intent e2).priority + 1) := by
  have key : ∀ (intent : Intent) (e : EmailData),
      (assign_priority_and_confidence intent e).priority =
        claimBasePriority intent.request_type +
          (if hasUrgencyKeyword e.body then 1 else 0) := by
    intro intent e
    unfold assign_priority_and_confidence hasUrgencyKeyword
    cases h : strContains (pyLower e.body) "urgent" ||
        strContains (pyLower e.body) "immediate" <;>
      simp [h, priority_lookup_eq_claimBase]
  refine ⟨key, ?_⟩
  intro intent e1 e2 h1 h2
  rw [key intent e1, key intent e2, h1, h2]
  simp

/-- C1 witness: a concrete urgent body scores exactly one more than the
same message without the urgency word, at category "Loan Request". -/
theorem assign_priority_spec_witness :
    hasUrgencyKeyword "Please reply, this is URGENT." = true ∧
    hasUrgencyKeyword "Please reply." = false ∧
    (assign_priority_and_confidence
        ⟨"Loan Request", 1/2, none, 0⟩
        ⟨"a.eml", "Loan", "Please reply, this is URGENT.", []⟩).priority =
      (assign_priority_and_confidence
        ⟨"Loan Request", 1/2, none, 0⟩
        ⟨"a.eml", "Loan", "Please reply.", []⟩).priority + 1 :=
  ⟨by decide, by decide,
    assign_priority_spec.2 ⟨"Loan Request", 1/2, none, 0⟩
      ⟨"a.eml", "Loan", "Please reply, this is URGENT.", []⟩
      ⟨"a.eml", "Loan", "Please reply.", []⟩ (by decide) (by decide)⟩

/-! Claim C5. -/

/-- C5: the fingerprint is a function of `subject ++ body` alone: it is
the fixed hash collaborator applied to that concatenation, so two records
with identical subject and body have identical fingerprints no matter how
their attachments (or filenames) differ; being a pure function, it is
also stable across repeated calls. -/
theorem compute_email_hash_subject_body_only :
    (∀ (md5hex : String → String) (e : EmailData),
      compute_email_hash md5hex e = md5hex (e.subject ++ e.body)) ∧
    (∀ (md5hex : String → String) (e1 e2 : EmailData),
      e1.subject = e2.subject → e1.body = e2.body →
      compute_email_hash md5hex e1 = compute_email_hash md5hex e2) := by
  refine ⟨fun _ _ => rfl, ?_⟩
  intro md5hex e1 e2 hs hb
  unfold compute_email_hash
  rw [hs, hb]

/-- C5 witness: two concrete records with equal subject and body but
different attachments and filenames hash identically. -/
theorem compute_email_hash_subject_body_only_witness :
    compute_email_hash id ⟨"a.eml", "S", "B", [("x.pdf", [1, 2, 3])]⟩ =
      compute_email_hash id ⟨"b.eml", "S", "B", []⟩ :=
  compute_email_hash_subject_body_only.2 id
    ⟨"a.eml", "S", "B", [("x.pdf", [1, 2, 3])]⟩
    ⟨"b.eml", "S", "B", []⟩ rfl rfl

/-! Claim C7. -/

/-- C7: the routing lookup is total and never yields the empty string:
each enumerated category maps to its fixed team and every category
outside the enumerated set maps to "Default Team". -/
theorem route_total_spec :
    route "Payment Inquiry" = "Finance Team" ∧
    route "Loan Request" = "Loan Processing Team" ∧
    route "Account Update" = "Customer Support Team" ∧
    (∀ c, c ∉ REQUEST_TYPES → route c = "Default Team") ∧
    (∀ c, route c ≠ "") := by
  have hdef : ∀ c, c ∉ REQUEST_TYPES → route c = "Default Team" := by
    intro c h
    simp [REQUEST_TYPES] at h
    obtain ⟨h1, h2, h3⟩ := h
    have e1 : (c == "Payment Inquiry") = false := beq_eq_false_iff_ne.mpr h1
    have e2 : (c == "Loan Request") = false := beq_eq_false_iff_ne.mpr h2
    have e3 : (c == "Account Update") = false := beq_eq_false_iff_ne.mpr h3
    simp [route, ROUTING_RULES, List.lookup, e1, e2, e3]
  refine ⟨by decide, by decide, by decide, hdef, ?_⟩
  intro c
  by_cases h : c ∈ REQUEST_TYPES
  · simp [REQUEST_TYPES] at h
    rcases h with h | h | h <;> subst h <;> decide
  · rw [hdef c h]
    decide

/-- C7 witness: a concrete unmapped category routes to the default team,
which is non-empty. -/
theorem route_total_spec_witness :
    route "Weather Report" = "Default Team" ∧ route "Weather Report" ≠ "" :=
  ⟨route_total_spec.2.2.2.1 "Weather Report" (by decide),
   route_total_spec.2.2.2.2 "Weather Report"⟩

/-! Claim C4: the multi-segment splitter.  The key fact is that Python's
`max(l, key=...)` returns the earliest element with maximal key, which we
characterise below. -/

/-- The accumulator loop of `max(key=...)` either keeps the seed (when
nothing beats it) or lands on an element of the list that strictly beats
the seed and everything before it, and is not beaten by anything after. -/
theorem maxByKeyAux_cases {α : Type _} (key : α → Rat) :
    ∀ (l : List α) (x : α),
      (maxByKeyAux key x l = x ∧ ∀ y ∈ l, key y ≤ key x) ∨
      (∃ r l1 l2, maxByKeyAux key x l = r ∧ l = l1 ++ r :: l2 ∧
        key x < key r ∧ (∀ y ∈ l1, key y < key r) ∧
        (∀ y ∈ l2, key y ≤ key r)) := by
  intro l
  induction l with
  | nil => exact fun x => Or.inl ⟨rfl, by simp⟩
  | cons y ys ih =>
    intro x
    by_cases h : key x < key y
    · have hred : maxByKeyAux key x (y :: ys) = maxByKeyAux key y ys := by
        simp [maxByKeyAux, h]
      rcases ih y with ⟨heq, hle⟩ | ⟨r, l1, l2, hr, heq, hlt, hl1, hl2⟩
      · exact Or.inr ⟨y, [], ys, hred.trans heq, rfl, h, by simp, hle⟩
      · refine Or.inr ⟨r, y :: l1, l2, hred.trans hr,
          by rw [heq]; exact (List.cons_append y l1 (r :: l2)).symm,
          lt_trans h hlt, ?_, hl2⟩
        intro z hz
        rcases List.mem_cons.mp hz with hz | hz
        · exact hz ▸ hlt
        · exact hl1 z hz
    · have hred : maxByKeyAux key x (y :: ys) = maxByKeyAux key x ys := by
        simp [maxByKeyAux, h]
      rcases ih x with ⟨heq, hle⟩ | ⟨r, l1, l2, hr, heq, hlt, hl1, hl2⟩
      · refine Or.inl ⟨hred.trans heq, ?_⟩
        intro z hz
        rcases List.mem_cons.mp hz with hz | hz
        · exact hz ▸ le_of_not_lt h
        · exact hle z hz
      · refine Or.inr ⟨r, y :: l1, l2, hred.trans hr,
          by rw [heq]; exact (List.cons_append y l1 (r :: l2)).symm, hlt,
          ?_, hl2⟩
        intro z hz
        rcases List.mem_cons.mp hz with hz | hz
        · exact hz ▸ lt_of_le_of_lt (le_of_not_lt h) hlt
        · exact hl1 z hz

/-- `find?` over a split list whose prefix falsifies the predicate and
whose split point satisfies it returns the split point. -/
theorem find?_of_split {α : Type _} (p : α → Bool) :
    ∀ (l1 : List α) (a : α) (l2 : List α),
      (∀ z ∈ l1, p z = false) → p a = true →
      (l1 ++ a :: l2).find? p = some a := by
  intro l1
  induction l1 with
  | nil =>
    intro a l2 _ ha
    simp [List.find?, ha]
  | cons b l1 ih =>
    intro a l2 h ha
    have hb : p b = false := h b (List.mem_cons_self b l1)
    rw [List.cons_append, List.find?]
    rw [hb]
    exact ih a l2 (fun z hz => h z (List.mem_cons_of_mem b hz)) ha

/-- Python `max(l, key=...) if l else None` equals the first element of
`l` whose key no element of `l` exceeds: ties go to the earliest. -/
theorem pyMaxByKey_eq_find? {α : Type _} (key : α → Rat) (l : List α) :
    pyMaxByKey key l =
      l.find? (fun a => l.all (fun b => decide (key b ≤ key a))) := by
  cases l with
  | nil => rfl
  | cons x xs =>
    rcases maxByKeyAux_cases key xs x with ⟨heq, hle⟩ |
      ⟨r, l1, l2, hr, heq, hlt, hl1, hl2⟩
    · have hp : (x :: xs).all (fun b => decide (key b ≤ key x)) = true := by
        rw [List.all_eq_true]
        intro b hb
        rw [decide_eq_true_iff]
        rcases List.mem_cons.mp hb with hb | hb
        · exact hb ▸ le_refl _
        · exact hle b hb
      show some (maxByKeyAux key x xs) = _
      rw [heq, List.find?, hp]
    · have hsplit : x :: xs = (x :: l1) ++ r :: l2 := by
        rw [heq]
        exact (List.cons_append x l1 (r :: l2)).symm
      have hptrue :
          ((x :: l1) ++ r :: l2).all (fun b => decide (key b ≤ key r)) =
            true := by
        rw [List.all_eq_true]
        intro b hb
        rw [decide_eq_true_iff]
        rcases List.mem_append.mp hb with hb | hb
        · rcases List.mem_cons.mp hb with hb | hb
          · exact hb ▸ le_of_lt hlt
          · exact le_of_lt (hl1 b hb)
        · rcases List.mem_cons.mp hb with hb | hb
          · exact hb ▸ le_refl _
          · exact hl2 b hb
      have hpfalse : ∀ z ∈ x :: l1,
          (((x :: l1) ++ r :: l2).all (fun b => decide (key b ≤ key z))) =
            false := by
        intro z hz
        have hzlt : key z < key r := by
          rcases List.mem_cons.mp hz with hz | hz
          · exact hz ▸ hlt
          · exact hl1 z hz
        rw [Bool.eq_false_iff]
        intro hall
        rw [List.all_eq_true] at hall
        have hrz := hall r (List.mem_append.mpr
          (Or.inr (List.mem_cons_self r l2)))
        rw [decide_eq_true_iff] at hrz
        exact absurd hrz (not_le.mpr hzlt)
      show some (maxByKeyAux key x xs) = _
      rw [hr, hsplit]
      exact (find?_of_split _ (x :: l1) r l2 hpfalse hptrue).symm

/-- With a classifier that never raises, the segment loop of
`handle_multi_request` collects, in order, one `SegmentIntent` for each
segment that survives the strip test. -/
theorem hmr_loop_total (cl : String → String × Rat) :
    ∀ (segments : List String) (acc : List SegmentIntent),
      hmr_loop (fun s => some (cl s)) acc segments
      = some (acc ++ (segments.filter stripTruthy).map
          (fun s => ⟨s, (cl s).1, (cl s).2⟩)) := by
  intro segments
  induction segments with
  | nil => intro acc; simp [hmr_loop]
  | cons s ss ih =>
    intro acc
    by_cases h : stripTruthy s
    · rw [hmr_loop, if_pos h]
      show hmr_loop (fun t => some (cl t))
        (acc ++ [⟨s, (cl s).1, (cl s).2⟩]) ss = _
      rw [ih]
      simp [List.filter_cons, h]
    · rw [hmr_loop, if_neg h, ih]
      simp [List.filter_cons, h]

/-- With a classifier that never raises, `handle_multi_request` returns
exactly the per-surviving-segment intents and their Python max. -/
theorem handle_multi_request_total (cl : String → String × Rat)
    (e : EmailData) :
    handle_multi_request (fun s => some (cl s)) e =
      (pyMaxByKey SegmentIntent.confidence
        (((pySplit e.body "\n\n").filter stripTruthy).map
          (fun s => ⟨s, (cl s).1, (cl s).2⟩)),
       ((pySplit e.body "\n\n").filter stripTruthy).map
          (fun s => ⟨s, (cl s).1, (cl s).2⟩)) := by
  simp only [handle_multi_request]
  rw [hmr_loop_total cl (pySplit e.body "\n\n") []]
  simp

/-- C4: with a non-raising classifier, the splitter's segment list
records exactly the substrings obtained by splitting the body on blank
lines, keeping only those with a non-whitespace character; the primary
intent is the earliest segment result of maximal confidence; and with
zero surviving segments the primary intent is absent and the list empty
while the call still returns normally. -/
theorem handle_multi_request_spec (cl : String → String × Rat)
    (e : EmailData) :
    ((handle_multi_request (fun s => some (cl s)) e).2.map
        SegmentIntent.segment =
      (pySplit e.body "\n\n").filter stripTruthy) ∧
    ((handle_multi_request (fun s => some (cl s)) e).1 =
      specPrimaryIntent (handle_multi_request (fun s => some (cl s)) e).2) ∧
    ((handle_multi_request (fun s => some (cl s)) e).2 = [] →
      (handle_multi_request (fun s => some (cl s)) e).1 = none) := by
  have hout := handle_multi_request_total cl e
  have hsnd : (handle_multi_request (fun s => some (cl s)) e).1 =
      specPrimaryIntent ((handle_multi_request (fun s => some (cl s)) e).2) := by
    rw [hout]
    exact pyMaxByKey_eq_find? SegmentIntent.confidence _
  refine ⟨?_, hsnd, ?_⟩
  · rw [hout]
    simp [List.map_map, Function.comp_def]
  · intro h2
    rw [hsnd, h2]
    rfl

/-- C4 witness: on an all-whitespace body the splitter returns an empty
segment list and an absent primary intent. -/
theorem handle_multi_request_spec_witness :
    (handle_multi_request (fun _ => some (("Payment Inquiry", (1 : Rat))))
      ⟨"w.eml", "S", "\n\n ", []⟩).2 = [] ∧
    (handle_multi_request (fun _ => some (("Payment Inquiry", (1 : Rat))))
      ⟨"w.eml", "S", "\n\n ", []⟩).1 = none := by
  have hempty :
      (handle_multi_request (fun _ => some (("Payment Inquiry", (1 : Rat))))
        ⟨"w.eml", "S", "\n\n ", []⟩).2 = [] := by decide
  exact ⟨hempty,
    (handle_multi_request_spec (fun _ => ("Payment Inquiry", (1 : Rat)))
      ⟨"w.eml", "S", "\n\n ", []⟩).2.2 hempty⟩

/-! Claim C10. -/

/-- C10: `route_request` always returns the record it was given — never
`none` — with exactly the `routing` field set to the looked-up team and
every other field (filename, intent, context, is_duplicate, all_intents)
unchanged.  In the source the `except` branch returns the record
unchanged, so totality holds there as well; on typed records the `try`
body cannot raise and the routing field is always added. -/
theorem route_request_frame (r : ResultRecord) :
    (route_request r).filename = r.filename ∧
    (route_request r).intent = r.intent ∧
    (route_request r).context = r.context ∧
    (route_request r).is_duplicate = r.is_duplicate ∧
    (route_request r).all_intents = r.all_intents ∧
    (route_request r).routing = some ⟨route r.intent.request_type⟩ :=
  ⟨rfl, rfl, rfl, rfl, rfl, rfl⟩

/-! Claim C3. -/

/-- C3: for every message reaching phase 2 with a working store, exactly
one row is appended to the record store no matter what the duplicate
check found — the pre-existing rows are arbitrary, so in particular the
insert also happens when a row with the same fingerprint already exists —
and the is_duplicate flag of the produced result reports precisely
whether a row with the same fingerprint existed before this insert. -/
theorem stored_regardless_of_duplicate (f : StoreFaults)
    (md5hex : String → String) (rows : List StoredRecord) (e : EmailData)
    (i : Intent) (c : Context) (p : Option SegmentIntent)
    (ai : List SegmentIntent)
    (hc : f.connectFails = false) (hi : f.insertRaises = false)
    (he : f.existsRaises = false) :
    (process_single_email f md5hex rows e i c p ai).2 =
      rows ++ [⟨e.filename, i.request_type, i.sub_request_type,
        i.request_confidence, c, compute_email_hash md5hex e⟩] ∧
    Option.map ResultRecord.is_duplicate
        (process_single_email f md5hex rows e i c p ai).1 =
      some (rows.any
        (fun row => row.email_hash == compute_email_hash md5hex e)) := by
  constructor
  · simp [process_single_email, store_email_data, hc, hi]
  · simp [process_single_email, route_request, detect_duplicates, hc, he]

/-- C3 witness: with a same-fingerprint row already stored, the new row
is still appended and the result is flagged as a duplicate. -/
theorem stored_regardless_of_duplicate_witness :
    (process_single_email ⟨false, false, false⟩ id
        [⟨"old.eml", "Payment Inquiry", none, 1, ⟨[], [], []⟩, "SB"⟩]
        ⟨"a.eml", "S", "B", []⟩ ⟨"Payment Inquiry", 1, none, 0⟩
        ⟨[], [], []⟩ none []).2 =
      [⟨"old.eml", "Payment Inquiry", none, 1, ⟨[], [], []⟩, "SB"⟩,
       ⟨"a.eml", "Payment Inquiry", none, 1, ⟨[], [], []⟩, "SB"⟩] ∧
    Option.map ResultRecord.is_duplicate
        (process_single_email ⟨false, false, false⟩ id
          [⟨"old.eml", "Payment Inquiry", none, 1, ⟨[], [], []⟩, "SB"⟩]
          ⟨"a.eml", "S", "B", []⟩ ⟨"Payment Inquiry", 1, none, 0⟩
          ⟨[], [], []⟩ none []).1 = some true := by
  have h := stored_regardless_of_duplicate ⟨false, false, false⟩ id
    [⟨"old.eml", "Payment Inquiry", none, 1, ⟨[], [], []⟩, "SB"⟩]
    ⟨"a.eml", "S", "B", []⟩ ⟨"Payment Inquiry", 1, none, 0⟩
    ⟨[], [], []⟩ none [] rfl rfl rfl
  exact ⟨h.1.trans (by decide), h.2.trans (by decide)⟩

/-! Claim C9. -/

/-- C9: when the existence query raises, detect_duplicates returns false,
and the message is not dropped: the result is still produced with
is_duplicate = false and, with a working insert, the row is still
appended to the store. -/
theorem dedup_failure_continues (f : StoreFaults) (md5hex : String → String)
    (rows : List StoredRecord) (e : EmailData) (i : Intent) (c : Context)
    (p : Option SegmentIntent) (ai : List SegmentIntent)
    (he : f.existsRaises = true) (hc : f.connectFails = false) :
    detect_duplicates f rows (compute_email_hash md5hex e) = false ∧
    Option.map ResultRecord.is_duplicate
        (process_single_email f md5hex rows e i c p ai).1 = some false ∧
    (f.insertRaises = false →
      (process_single_email f md5hex rows e i c p ai).2 =
        rows ++ [⟨e.filename, i.request_type, i.sub_request_type,
          i.request_confidence, c, compute_email_hash md5hex e⟩]) := by
  refine ⟨by simp [detect_duplicates, he], ?_, ?_⟩
  · simp [process_single_email, route_request, detect_duplicates, hc, he]
  · intro hi
    simp [process_single_email, store_email_data, hc, hi]

/-- C9 witness: with a raising existence query against a store that does
contain the fingerprint, the message still yields a result flagged not
duplicate. -/
theorem dedup_failure_continues_witness :
    Option.map ResultRecord.is_duplicate
        (process_single_email ⟨false, true, false⟩ id
          [⟨"old.eml", "Payment Inquiry", none, 1, ⟨[], [], []⟩, "SB"⟩]
          ⟨"a.eml", "S", "B", []⟩ ⟨"Payment Inquiry", 1, none, 0⟩
          ⟨[], [], []⟩ none []).1 = some false :=
  (dedup_failure_continues ⟨false, true, false⟩ id
    [⟨"old.eml", "Payment Inquiry", none, 1, ⟨[], [], []⟩, "SB"⟩]
    ⟨"a.eml", "S", "B", []⟩ ⟨"Payment Inquiry", 1, none, 0⟩
    ⟨[], [], []⟩ none [] rfl rfl).2.1

/-! Claim C2.  The claim is false on the code: `store_email_data`
catches the insert error itself and returns normally, so
`process_single_email` carries on and the message stays in the output. -/

/-- C2 counterexample: with the record-store insert raising and
everything else healthy, process_single_email still returns a result
for the message, contradicting the claim that it returns no result. -/
theorem store_failure_not_dropped_cex :
    ((process_single_email ⟨false, false, true⟩ id []
        ⟨"a.eml", "S", "B", []⟩ ⟨"Payment Inquiry", 1, none, 0⟩
        ⟨[], [], []⟩ none []).1).isSome = true := by
  decide

/-- C2 amended: when the record-store insert raises, the error is caught
and logged inside store_email_data and the message is not dropped:
process_single_email still returns a result for it (while the store is
left unchanged); in phase 2 only a connection failure during database
setup drops a message. -/
theorem store_failure_kept (f : StoreFaults) (md5hex : String → String)
    (rows : List StoredRecord) (e : EmailData) (i : Intent) (c : Context)
    (p : Option SegmentIntent) (ai : List SegmentIntent)
    (hc : f.connectFails = false) (hi : f.insertRaises = true) :
    ((process_single_email f md5hex rows e i c p ai).1).isSome = true ∧
    (process_single_email f md5hex rows e i c p ai).2 = rows := by
  constructor
  · simp [process_single_email, hc]
  · simp [process_single_email, store_email_data, hc, hi]

/-- C2 amended witness: the insert-failure scenario at concrete values:
result produced, store unchanged. -/
theorem store_failure_kept_witness :
    ((process_single_email ⟨false, false, true⟩ id []
        ⟨"b.eml", "S", "B", []⟩ ⟨"Loan Request", 1, none, 0⟩
        ⟨[], [], []⟩ none []).1).isSome = true ∧
    (process_single_email ⟨false, false, true⟩ id []
        ⟨"b.eml", "S", "B", []⟩ ⟨"Loan Request", 1, none, 0⟩
        ⟨[], [], []⟩ none []).2 = [] :=
  store_failure_kept ⟨false, false, true⟩ id []
    ⟨"b.eml", "S", "B", []⟩ ⟨"Loan Request", 1, none, 0⟩
    ⟨[], [], []⟩ none [] rfl rfl

/-! Claim C6. -/

/-- C6: the pipeline considers only names ending in ".eml" (adding any
other names to the input changes nothing), and — with the record store
healthy — a considered message produces no output entry exactly when
component extraction, intent classification or context extraction fails;
in particular the segment-analysis outcome, including an empty segment
list or a raising segment classifier, never excludes a message. -/
theorem pipeline_skip_spec (collab : Collaborators) (f : StoreFaults)
    (files : List String) (fp : String) (rows : List StoredRecord)
    (hml : pyEndsWith fp ".eml" = true) (hc : f.connectFails = false) :
    (process_email_pipeline collab f files rows =
      process_email_pipeline collab f
        (files.filter (fun n => pyEndsWith n ".eml")) rows) ∧
    ((process_email_pipeline collab f [fp] rows).1 = [] ↔
      (extract_email_components (collab.parse fp) fp = none ∨
       ∃ e, extract_email_components (collab.parse fp) fp = some e ∧
         (collab.classify_email_intent e = none ∨
          collab.extract_context e = none))) := by
  constructor
  · simp only [process_email_pipeline, List.filter_filter, Bool.and_self]
  · have hfp : List.filter (fun n => pyEndsWith n ".eml") [fp] = [fp] := by
      simp [List.filter, hml]
    simp only [process_email_pipeline, hfp]
    rcases hx : extract_email_components (collab.parse fp) fp with _ | e
    · simp [hx]
    · rcases hi : collab.classify_email_intent e with _ | i
      · simp [hx, hi]
      · rcases hctx : collab.extract_context e with _ | c
        · simp [hx, hi, hctx]
        · simp [hx, hi, hctx, process_single_email, hc]

/-- C6 witness: a considered file whose parse fails yields an empty
output batch. -/
theorem pipeline_skip_spec_witness :
    (process_email_pipeline
        ⟨fun _ => none, fun _ => none, fun _ => none, fun _ => none, id⟩
        ⟨false, false, false⟩ ["a.eml"] []).1 = [] :=
  (pipeline_skip_spec
    ⟨fun _ => none, fun _ => none, fun _ => none, fun _ => none, id⟩
    ⟨false, false, false⟩ ["a.eml"] "a.eml" [] (by decide) rfl).2.mpr
    (Or.inl rfl)

/-! Claim C8.  The claim is false on the code: a text/plain part whose
decode raises is not replaced by an empty string — the single `except`
of `extract_email_components` catches it and the whole message extraction
returns `None` (the message is skipped). -/

/-- When every text/plain part decodes, the walk succeeds and the body
accumulates the decoded contents in order. -/
theorem walk_parts_all_decode :
    ∀ (parts : List RawPart) (body : String)
      (atts : List (String × List Nat)),
      (∀ part ∈ parts, part.content_type = "text/plain" →
        (part.decodedText).isSome = true) →
      ∃ atts2, walk_parts (body, atts) parts =
        some (body ++ claimBody parts, atts2) := by
  intro parts
  induction parts with
  | nil =>
    intro body atts _
    exact ⟨atts, by simp [walk_parts, claimBody, String.append_empty]⟩
  | cons part rest ih =>
    intro body atts hdec
    have hrest : ∀ p ∈ rest, p.content_type = "text/plain" →
        (p.decodedText).isSome = true :=
      fun p hp => hdec p (List.mem_cons_of_mem part hp)
    by_cases hct : part.content_type = "text/plain"
    · have hsome := hdec part (List.mem_cons_self part rest) hct
      rcases hx : part.decodedText with _ | s
      · rw [hx] at hsome
        simp at hsome
      · obtain ⟨atts2, h2⟩ := ih (body ++ s) atts hrest
        refine ⟨atts2, ?_⟩
        rw [walk_parts, if_pos hct, hx]
        show walk_parts (body ++ s, atts) rest =
          some (body ++ claimBody (part :: rest), atts2)
        rw [h2, claimBody, if_pos hct, hx]
        rw [Option.getD_some, String.append_assoc]
    · by_cases hmp : pyStartsWith part.content_type "multipart"
      · obtain ⟨atts2, h2⟩ := ih body atts hrest
        refine ⟨atts2, ?_⟩
        rw [walk_parts, if_neg hct]
        rw [claimBody, if_neg hct, String.empty_append]
        simp only [hmp, Bool.not_true, Bool.false_eq_true, if_false]
        exact h2
      · have hmp2 : pyStartsWith part.content_type "multipart" = false :=
          Bool.eq_false_iff.mpr hmp
        rcases hfn : part.filename with _ | name
        · obtain ⟨atts2, h2⟩ := ih body atts hrest
          refine ⟨atts2, ?_⟩
          rw [walk_parts, if_neg hct]
          rw [claimBody, if_neg hct, String.empty_append]
          simp only [hmp2, Bool.not_false, if_true, hfn]
          exact h2
        · obtain ⟨atts2, h2⟩ :=
            ih body (atts ++ [(name, part.payloadBytes)]) hrest
          refine ⟨atts2, ?_⟩
          rw [walk_parts, if_neg hct]
          rw [claimBody, if_neg hct, String.empty_append]
          simp only [hmp2, Bool.not_false, if_true, hfn]
          exact h2

/-- If some text/plain part fails to decode, the walk fails as a whole,
whatever the accumulator. -/
theorem walk_parts_decode_failure :
    ∀ (parts : List RawPart) (acc : String × List (String × List Nat)),
      (∃ part ∈ parts, part.content_type = "text/plain" ∧
        part.decodedText = none) →
      walk_parts acc parts = none := by
  intro parts
  induction parts with
  | nil =>
    intro acc h
    simp at h
  | cons part rest ih =>
    intro acc h
    rcases h with ⟨q, hq, hqct, hqdec⟩
    rcases List.mem_cons.mp hq with hq | hq
    · subst hq
      rw [walk_parts, if_pos hqct, hqdec]
    · by_cases hct : part.content_type = "text/plain"
      · rcases hx : part.decodedText with _ | s
        · rw [walk_parts, if_pos hct, hx]
        · rw [walk_parts, if_pos hct, hx]
          show walk_parts (acc.1 ++ s, acc.2) rest = none
          exact ih _ ⟨q, hq, hqct, hqdec⟩
      · by_cases hmp : pyStartsWith part.content_type "multipart"
        · rw [walk_parts, if_neg hct]
          simp only [hmp, Bool.not_true, Bool.false_eq_true, if_false]
          exact ih _ ⟨q, hq, hqct, hqdec⟩
        · have hmp2 : pyStartsWith part.content_type "multipart" = false :=
            Bool.eq_false_iff.mpr hmp
          rcases hfn : part.filename with _ | name
          · rw [walk_parts, if_neg hct]
            simp only [hmp2, Bool.not_false, if_true, hfn]
            exact ih _ ⟨q, hq, hqct, hqdec⟩
          · rw [walk_parts, if_neg hct]
            simp only [hmp2, Bool.not_false, if_true, hfn]
            exact ih _ ⟨q, hq, hqct, hqdec⟩

/-- C8 counterexample: a perfectly parsed message with one text/plain
part whose decode fails is skipped completely (extraction returns none)
instead of keeping the message with an empty-string contribution. -/
theorem extract_decode_failure_cex :
    extract_email_components
      (some ⟨some "S", [⟨"text/plain", none, none, []⟩]⟩) "a.eml" =
      none := by
  rfl

/-- C8 amended: the extractor yields an EmailRecord with the subject
defaulting to the empty string when the header is missing and the body
the concatenation of the decoded text/plain parts, provided every
text/plain part decodes; a text/plain part that fails to decode fails
the whole message (it is skipped), as does a message that cannot be
parsed at all. -/
theorem extract_email_components_spec (msg : RawMessage)
    (basename : String) :
    ((∀ part ∈ msg.parts, part.content_type = "text/plain" →
        (part.decodedText).isSome = true) →
      ∃ attachments, extract_email_components (some msg) basename =
        some ⟨basename, msg.subject.getD "", claimBody msg.parts,
          attachments⟩) ∧
    ((∃ part ∈ msg.parts, part.content_type = "text/plain" ∧
        part.decodedText = none) →
      extract_email_components (some msg) basename = none) ∧
    extract_email_components none basename = none := by
  refine ⟨?_, ?_, rfl⟩
  · intro hdec
    obtain ⟨atts2, h2⟩ := walk_parts_all_decode msg.parts "" [] hdec
    rw [String.empty_append] at h2
    refine ⟨atts2, ?_⟩
    simp only [extract_email_components]
    rw [h2]
  · intro hfail
    have h := walk_parts_decode_failure msg.parts ("", []) hfail
    simp only [extract_email_components]
    rw [h]

/-- C8 amended witness: a concrete message with a missing subject, two
decodable text parts, a multipart container and an attachment extracts
to a record with empty subject and concatenated body. -/
theorem extract_email_components_spec_witness :
    ∃ attachments,
      extract_email_components
        (some ⟨none,
          [⟨"text/plain", some "Hello ", none, []⟩,
           ⟨"multipart/mixed", none, none, []⟩,
           ⟨"application/pdf", none, some "x.pdf", [1, 2]⟩,
           ⟨"text/plain", some "World", none, []⟩]⟩) "w.eml" =
        some ⟨"w.eml", "",
          claimBody
            [⟨"text/plain", some "Hello ", none, []⟩,
             ⟨"multipart/mixed", none, none, []⟩,
             ⟨"application/pdf", none, some "x.pdf", [1, 2]⟩,
             ⟨"text/plain", some "World", none, []⟩],
          attachments⟩ :=
  (extract_email_components_spec
    ⟨none,
      [⟨"text/plain", some "Hello ", none, []⟩,
       ⟨"multipart/mixed", none, none, []⟩,
       ⟨"application/pdf", none, some "x.pdf", [1, 2]⟩,
       ⟨"text/plain", some "World", none, []⟩]⟩ "w.eml").1 (by decide)

end EmailProc
